import Mathlib

/-!
Shallow embedding of the dxgkrnl handle manager
(`drivers/hyperv/dxgkrnl/hmgr.c`): a generation-counted handle table.

Machine integers (`uint`, 32 bits) are modelled as `Nat`; explicit
`% 2 ^ 32` appears where C arithmetic could wrap, and writes to the
2-bit `unique` bitfield truncate with `% 2 ^ HMGRHANDLE_UNIQUE_BITS`.
The entry array is a `List hmgrentry` together with the separate
`table_size` field kept by the C code; in-bounds reads use `List.getD`
with an explicit `null_entry` default.  The C `struct hmgrentry` holds
`object` in a union with the two free-list link fields; the model keeps
them as separate fields, which agrees with the source on every executed
path because links are only read from entries whose `type` is FREE.
`dxgmem_alloc` success/failure is an explicit `alloc_ok : Bool`
parameter; debug-only `DXGKRNL_ASSERT` statements compile to nothing in
release builds and are not modelled.
-/

/-- Handle parameters from hmgr.c. -/
def HMGRHANDLE_INSTANCE_BITS : Nat := 6

def HMGRHANDLE_INDEX_BITS : Nat := 24

def HMGRHANDLE_UNIQUE_BITS : Nat := 2

def HMGRHANDLE_INSTANCE_SHIFT : Nat := 0

def HMGRHANDLE_INDEX_SHIFT : Nat :=
  HMGRHANDLE_INSTANCE_BITS + HMGRHANDLE_INSTANCE_SHIFT

def HMGRHANDLE_UNIQUE_SHIFT : Nat :=
  HMGRHANDLE_INDEX_BITS + HMGRHANDLE_INDEX_SHIFT

def HMGRHANDLE_INSTANCE_MASK : Nat :=
  ((1 <<< HMGRHANDLE_INSTANCE_BITS) - 1) <<< HMGRHANDLE_INSTANCE_SHIFT

def HMGRHANDLE_INDEX_MASK : Nat :=
  ((1 <<< HMGRHANDLE_INDEX_BITS) - 1) <<< HMGRHANDLE_INDEX_SHIFT

def HMGRHANDLE_UNIQUE_MASK : Nat :=
  ((1 <<< HMGRHANDLE_UNIQUE_BITS) - 1) <<< HMGRHANDLE_UNIQUE_SHIFT

def HMGRHANDLE_INSTANCE_MAX : Nat := (1 <<< HMGRHANDLE_INSTANCE_BITS) - 1

def HMGRHANDLE_INDEX_MAX : Nat := (1 <<< HMGRHANDLE_INDEX_BITS) - 1

def HMGRHANDLE_UNIQUE_MAX : Nat := (1 <<< HMGRHANDLE_UNIQUE_BITS) - 1

def HMGRTABLE_SIZE_INCREMENT : Nat := 1024

def HMGRTABLE_MIN_FREE_ENTRIES : Nat := 128

/-- `~((1 << HMGRHANDLE_INDEX_BITS) - 1)` as a 32-bit unsigned value. -/
def HMGRTABLE_INVALID_INDEX : Nat :=
  (2 ^ 32 - 1) - ((1 <<< HMGRHANDLE_INDEX_BITS) - 1)

/-- `static uint table_size_increment = HMGRTABLE_SIZE_INCREMENT;`
(never modified in the source). -/
def table_size_increment : Nat := HMGRTABLE_SIZE_INCREMENT

/-- Modelled from the spec: `HMGRENTRY_TYPE_FREE` is declared in
`hmgr.h`, which is not part of the sources; the free tag is the zero
enumerator and other object kinds are positive values. -/
def HMGRENTRY_TYPE_FREE : Nat := 0

/-- `struct hmgrentry`.  `object` (an opaque pointer, modelled as a
`Nat` token) shares a C union with `prev_free_index`/`next_free_index`;
the model stores all three.  `inst` is the `instance` bitfield (the C
name is a Lean keyword).  New entries produced by `expand_table` leave
`destroyed` and `object` uninitialised in C; the model uses `false`/`0`,
which no executed path reads beforehand. -/
structure hmgrentry where
  object : Nat
  prev_free_index : Nat
  next_free_index : Nat
  type : Nat
  unique : Nat
  inst : Nat
  destroyed : Bool
deriving Repr, DecidableEq

def null_entry : hmgrentry :=
  { object := 0, prev_free_index := 0, next_free_index := 0,
    type := HMGRENTRY_TYPE_FREE, unique := 0, inst := 0, destroyed := false }

/-- `struct hmgrtable` (the `process` owner tag and the rw-semaphore are
not modelled: no claim depends on them). -/
structure hmgrtable where
  entry_table : List hmgrentry
  table_size : Nat
  free_handle_list_head : Nat
  free_handle_list_tail : Nat
  free_count : Nat
deriving Repr, DecidableEq

/-- NTSTATUS result of `hmgrtable_assign_handle`.  Modelled from the
spec: the numeric codes `STATUS_INVALID_PARAMETER` / `STATUS_NO_MEMORY`
come from headers outside the sources; only success (0) versus the two
distinct failure codes matters. -/
inductive Status where
  | success
  | invalid_parameter
  | no_memory
deriving Repr, DecidableEq

/-- `get_unique`. -/
def get_unique (h : Nat) : Nat :=
  (h &&& HMGRHANDLE_UNIQUE_MASK) >>> HMGRHANDLE_UNIQUE_SHIFT

/-- `get_index`. -/
def get_index (h : Nat) : Nat :=
  (h &&& HMGRHANDLE_INDEX_MASK) >>> HMGRHANDLE_INDEX_SHIFT

/-- `get_instance`. -/
def get_instance (h : Nat) : Nat :=
  (h &&& HMGRHANDLE_INSTANCE_MASK) >>> HMGRHANDLE_INSTANCE_SHIFT

/-- `build_handle`; the shifts are 32-bit `uint` arithmetic, hence the
explicit reductions modulo `2 ^ 32`. -/
def build_handle (index unique inst : Nat) : Nat :=
  let handle_bits :=
    ((index <<< HMGRHANDLE_INDEX_SHIFT) % 2 ^ 32) &&& HMGRHANDLE_INDEX_MASK
  let handle_bits := handle_bits |||
    (((unique <<< HMGRHANDLE_UNIQUE_SHIFT) % 2 ^ 32) &&& HMGRHANDLE_UNIQUE_MASK)
  let handle_bits := handle_bits |||
    (((inst <<< HMGRHANDLE_INSTANCE_SHIFT) % 2 ^ 32) &&& HMGRHANDLE_INSTANCE_MASK)
  handle_bits

/-- `is_handle_valid`. -/
def is_handle_valid (table : hmgrtable) (h : Nat) (ignore_destroyed : Bool)
    (t : Nat) : Bool :=
  let index := get_index h
  let unique := get_unique h
  if index ≥ table.table_size then
    false
  else
    let entry := table.entry_table.getD index null_entry
    if unique ≠ entry.unique then
      false
    else if entry.destroyed && !ignore_destroyed then
      false
    else if entry.type = HMGRENTRY_TYPE_FREE then
      false
    else if t ≠ HMGRENTRY_TYPE_FREE && t ≠ entry.type then
      false
    else
      true

/-- The initialisation loop of `expand_table`: `count` fresh free
entries for indices `table_index, table_index+1, ...`, each with
`prev_free_index` the running previous index, `next_free_index` the
successor index, type FREE, `unique = 1`, `instance = 0`.  (C leaves
`destroyed` and the `object` half of the union untouched here.) -/
def init_free_entries : Nat → Nat → Nat → List hmgrentry
  | 0, _, _ => []
  | Nat.succ k, table_index, prev_free_index =>
      { object := 0,
        prev_free_index := prev_free_index,
        next_free_index := table_index + 1,
        type := HMGRENTRY_TYPE_FREE,
        unique := 1,
        inst := 0,
        destroyed := false } :: init_free_entries k (table_index + 1) table_index

/-- `expand_table`.  `alloc_ok` models the result of `dxgmem_alloc`;
the `memcpy` of the old array and the reallocation are the
`take`/append on the entry list. -/
def expand_table (table : hmgrtable) (NumEntries : Nat) (alloc_ok : Bool) :
    Bool × hmgrtable :=
  let tail_index := table.free_handle_list_tail
  -- The tail should point to the last free element in the list
  if ¬ (table.free_count = 0 ∨
        (table.entry_table.getD tail_index null_entry).next_free_index =
          HMGRTABLE_INVALID_INDEX) then
    (false, table)
  else
    let new_table_size0 := table.table_size + table_size_increment
    let new_table_size :=
      if new_table_size0 < NumEntries then NumEntries else new_table_size0
    if new_table_size > HMGRHANDLE_INDEX_MAX then
      (false, table)
    else if ¬ alloc_ok then
      (false, table)
    else
      -- memcpy of the old entries; `entry_table == NULL` sets head to 0
      let t1 :=
        if table.entry_table = [] then
          { table with free_handle_list_head := 0 }
        else
          table
      let new_free_count := t1.free_count + table_size_increment
      let prev_free_index := t1.free_handle_list_tail
      let entries1 := t1.entry_table.take t1.table_size ++
        init_free_entries (new_table_size - t1.table_size) t1.table_size
          prev_free_index
      -- entry_table[table_index - 1].next_free_index = INVALID
      let entries2 := entries1.set (new_table_size - 1)
        ({ entries1.getD (new_table_size - 1) null_entry with
            next_free_index := HMGRTABLE_INVALID_INDEX })
      -- link the current free list with the new entries
      let entries3 :=
        if t1.free_count ≠ 0 then
          entries2.set t1.free_handle_list_tail
            ({ entries2.getD t1.free_handle_list_tail null_entry with
                next_free_index := t1.table_size })
        else
          entries2
      let head' :=
        if t1.free_handle_list_head = HMGRTABLE_INVALID_INDEX then
          t1.table_size
        else
          t1.free_handle_list_head
      (true,
        { entry_table := entries3,
          table_size := new_table_size,
          free_handle_list_head := head',
          free_handle_list_tail := new_table_size - 1,
          free_count := new_free_count })

/-- `hmgrtable_init` (the process tag and lock are not modelled). -/
def hmgrtable_init : hmgrtable :=
  { entry_table := [],
    table_size := 0,
    free_handle_list_head := HMGRTABLE_INVALID_INDEX,
    free_handle_list_tail := HMGRTABLE_INVALID_INDEX,
    free_count := 0 }

/-- Body of `hmgrtable_alloc_handle` after the low-water growth check
(lines 341-373): pop the head of the free list and overwrite the slot.
Factored out so the growth step appears once. -/
def hmgrtable_alloc_handle_pop (t : hmgrtable) (object : Nat) (type : Nat)
    (make_valid : Bool) : Nat × hmgrtable :=
  if t.free_handle_list_head ≥ t.table_size then
    (0, t)
  else
    let index := t.free_handle_list_head
    let entry := t.entry_table.getD index null_entry
    if entry.type ≠ HMGRENTRY_TYPE_FREE then
      (0, t)
    else
      let t1 := { t with free_handle_list_head := entry.next_free_index }
      let finish : hmgrtable → Nat × hmgrtable := fun t2 =>
        let unique := (t2.entry_table.getD index null_entry).unique
        let new_slot := { t2.entry_table.getD index null_entry with
          object := object,
          type := type,
          inst := 0,
          destroyed := !make_valid }
        let t3 := { t2 with entry_table := t2.entry_table.set index new_slot }
        let t4 := { t3 with free_count := t3.free_count - 1 }
        (build_handle index unique
          ((t4.entry_table.getD index null_entry).inst), t4)
      if entry.next_free_index ≠ t1.free_handle_list_tail then
        if entry.next_free_index ≥ t1.table_size then
          (0, t1)
        else
          let next_slot :=
            { t1.entry_table.getD entry.next_free_index null_entry with
                prev_free_index := HMGRTABLE_INVALID_INDEX }
          let t2 := { t1 with entry_table :=
            t1.entry_table.set entry.next_free_index next_slot }
          finish t2
      else
        finish t1

/-- `hmgrtable_alloc_handle`; returns the handle (0 on failure) and the
resulting table. -/
def hmgrtable_alloc_handle (table : hmgrtable) (object : Nat) (type : Nat)
    (make_valid : Bool) (alloc_ok : Bool) : Nat × hmgrtable :=
  let step1 :=
    if table.free_count ≤ HMGRTABLE_MIN_FREE_ENTRIES then
      expand_table table 0 alloc_ok
    else
      (true, table)
  if step1.1 = false then
    (0, step1.2)
  else
    hmgrtable_alloc_handle_pop step1.2 object type make_valid

/-- Second half of `hmgrtable_assign_handle` (lines 434-455): unlink
the slot from the free-list head position if needed, then overwrite the
slot with the object.  Split out because the C function returns from
the head-unlink bounds check with the tail-case mutation already
applied.  Every field of the slot is written (the `prev`/`next` stores
are overwritten by the `object` store through the union, but all three
are recorded); the `unique` store truncates to the 2-bit bitfield. -/
def hmgrtable_assign_handle_head (t1 : hmgrtable) (object : Nat) (type : Nat)
    (index : Nat) (unique : Nat) (entry : hmgrentry) : Status × hmgrtable :=
  let finish : hmgrtable → Status × hmgrtable := fun t2 =>
    let new_slot : hmgrentry :=
      { object := object,
        prev_free_index := HMGRTABLE_INVALID_INDEX,
        next_free_index := HMGRTABLE_INVALID_INDEX,
        type := type,
        unique := unique % 2 ^ HMGRHANDLE_UNIQUE_BITS,
        inst := 0,
        destroyed := false }
    let t3 := { t2 with entry_table := t2.entry_table.set index new_slot }
    (Status.success, { t3 with free_count := t3.free_count - 1 })
  if index ≠ t1.free_handle_list_head then
    if entry.prev_free_index ≥ t1.table_size then
      (Status.invalid_parameter, t1)
    else
      let prev_slot :=
        { t1.entry_table.getD entry.prev_free_index null_entry with
            next_free_index := entry.next_free_index }
      finish { t1 with entry_table :=
        t1.entry_table.set entry.prev_free_index prev_slot }
  else
    finish { t1 with free_handle_list_head := entry.next_free_index }

/-- Body of `hmgrtable_assign_handle` after the growth step (lines
413-455): check the slot is Free, unlink it from an arbitrary free-list
position (tail case first, then the head case via
`hmgrtable_assign_handle_head`). -/
def hmgrtable_assign_handle_unlink (t : hmgrtable) (object : Nat) (type : Nat)
    (index : Nat) (unique : Nat) : Status × hmgrtable :=
  let entry := t.entry_table.getD index null_entry
  if entry.type ≠ HMGRENTRY_TYPE_FREE then
    (Status.invalid_parameter, t)
  else
    if index ≠ t.free_handle_list_tail then
      if entry.next_free_index ≥ t.table_size then
        (Status.invalid_parameter, t)
      else
        let next_slot :=
          { t.entry_table.getD entry.next_free_index null_entry with
              prev_free_index := entry.prev_free_index }
        let t1 := { t with entry_table :=
          t.entry_table.set entry.next_free_index next_slot }
        hmgrtable_assign_handle_head t1 object type index unique entry
    else
      let t1 := { t with free_handle_list_tail := entry.prev_free_index }
      hmgrtable_assign_handle_head t1 object type index unique entry

/-- `hmgrtable_assign_handle`. -/
def hmgrtable_assign_handle (table : hmgrtable) (object : Nat) (type : Nat)
    (h : Nat) (alloc_ok : Bool) : Status × hmgrtable :=
  let index := get_index h
  let unique := get_unique h
  if index ≥ HMGRHANDLE_INDEX_MAX then
    (Status.invalid_parameter, table)
  else
    let step :=
      if index ≥ table.table_size then
        let new_size := index + HMGRTABLE_SIZE_INCREMENT
        let new_size :=
          if new_size > HMGRHANDLE_INDEX_MAX then HMGRHANDLE_INDEX_MAX
          else new_size
        expand_table table new_size alloc_ok
      else
        (true, table)
    if step.1 = false then
      (Status.no_memory, step.2)
    else
      hmgrtable_assign_handle_unlink step.2 object type index unique

/-- `hmgrtable_free_handle`.  The source first stores 1 into the 2-bit
`unique` bitfield and then runs the increment-with-wrap on the value
just stored; the translation keeps both steps verbatim.  The final
free-list append writes `entry_table[free_handle_list_tail]` without a
bounds check; this total model uses `List.set`, which silently does
nothing out of bounds — `hmgrtable_free_handle_checked` below models
the access check explicitly. -/
def hmgrtable_free_handle (table : hmgrtable) (t : Nat) (h : Nat) : hmgrtable :=
  let i := get_index h
  -- Ignore the destroyed flag when checking the handle
  if is_handle_valid table h true t then
    let entry := table.entry_table.getD i null_entry
    let entry := { entry with
      unique := 1, type := HMGRENTRY_TYPE_FREE, destroyed := false }
    let entry :=
      if entry.unique ≠ HMGRHANDLE_UNIQUE_MAX then
        { entry with unique := (entry.unique + 1) % 2 ^ HMGRHANDLE_UNIQUE_BITS }
      else
        { entry with unique := 1 }
    let table1 := { table with free_count := table.free_count + 1 }
    -- Insert the index to the free list at the tail.
    let entry := { entry with
      next_free_index := HMGRTABLE_INVALID_INDEX,
      prev_free_index := table1.free_handle_list_tail }
    let table2 := { table1 with entry_table := table1.entry_table.set i entry }
    let tail_index := table2.free_handle_list_tail
    let old_tail := table2.entry_table.getD tail_index null_entry
    let new_tail := { old_tail with next_free_index := i }
    let table3 := { table2 with
      entry_table := table2.entry_table.set tail_index new_tail }
    { table3 with free_handle_list_tail := i }
  else
    table

/-- `hmgrtable_free_handle` with every entry-array access guarded by an
explicit bounds check against `table_size` (the extent of the C
allocation); `none` means the C code would touch memory outside the
entry array. -/
def hmgrtable_free_handle_checked (table : hmgrtable) (t : Nat) (h : Nat) :
    Option hmgrtable :=
  let i := get_index h
  if is_handle_valid table h true t then
    if i < table.table_size then
      let entry := table.entry_table.getD i null_entry
      let entry := { entry with
        unique := 1, type := HMGRENTRY_TYPE_FREE, destroyed := false }
      let entry :=
        if entry.unique ≠ HMGRHANDLE_UNIQUE_MAX then
          { entry with
              unique := (entry.unique + 1) % 2 ^ HMGRHANDLE_UNIQUE_BITS }
        else
          { entry with unique := 1 }
      let table1 := { table with free_count := table.free_count + 1 }
      let entry := { entry with
        next_free_index := HMGRTABLE_INVALID_INDEX,
        prev_free_index := table1.free_handle_list_tail }
      let table2 :=
        { table1 with entry_table := table1.entry_table.set i entry }
      let tail_index := table2.free_handle_list_tail
      if tail_index < table2.table_size then
        let old_tail := table2.entry_table.getD tail_index null_entry
        let new_tail := { old_tail with next_free_index := i }
        let table3 := { table2 with
          entry_table := table2.entry_table.set tail_index new_tail }
        some { table3 with free_handle_list_tail := i }
      else
        none
    else
      none
  else
    some table

/-- `hmgrtable_get_object_by_type`; `none` models the NULL return. -/
def hmgrtable_get_object_by_type (table : hmgrtable) (type : Nat) (h : Nat) :
    Option Nat :=
  if ¬ is_handle_valid table h false type then
    none
  else
    some (table.entry_table.getD (get_index h) null_entry).object

/-- `free_count` equals the number of Free-variant entries (the
invariant the spec states for every reachable table). -/
def free_count_consistent (t : hmgrtable) : Prop :=
  t.free_count = t.entry_table.countP (fun e => e.type == HMGRENTRY_TYPE_FREE)

/-- Every slot's stored generation is nonzero. -/
def no_zero_generation (t : hmgrtable) : Prop :=
  ∀ e ∈ t.entry_table, e.unique ≠ 0

/-- An occupied entry with generation 2, used as a concrete slot in
witness tables. -/
def occupied_entry_gen2 : hmgrentry :=
  { object := 9, prev_free_index := 0, next_free_index := 0,
    type := 1, unique := 2, inst := 0, destroyed := false }

/-- A free entry that is the sole element of its free list. -/
def sole_free_entry : hmgrentry :=
  { object := 0, prev_free_index := HMGRTABLE_INVALID_INDEX,
    next_free_index := HMGRTABLE_INVALID_INDEX,
    type := HMGRENTRY_TYPE_FREE, unique := 1, inst := 0, destroyed := false }

/-- Two-slot table: slot 0 occupied with generation 2, slot 1 the sole
free-list member. -/
def two_slot_table : hmgrtable :=
  { entry_table := [occupied_entry_gen2, sole_free_entry],
    table_size := 2,
    free_handle_list_head := 1,
    free_handle_list_tail := 1,
    free_count := 1 }

/-- A free entry whose successor in the free list is slot 1. -/
def chained_free_entry : hmgrentry :=
  { object := 0, prev_free_index := 0, next_free_index := 1,
    type := HMGRENTRY_TYPE_FREE, unique := 1, inst := 0, destroyed := false }

/-- 130-slot table with more than `HMGRTABLE_MIN_FREE_ENTRIES` free
entries, so an allocation does not trigger growth. -/
def many_free_table : hmgrtable :=
  { entry_table := List.replicate 130 chained_free_entry,
    table_size := 130,
    free_handle_list_head := 0,
    free_handle_list_tail := 1,
    free_count := 129 }

/-- Empty-free-list table whose size already sits at the 24-bit index
ceiling, so any growth attempt overflows the index field. -/
def ceiling_table : hmgrtable :=
  { entry_table := [],
    table_size := HMGRHANDLE_INDEX_MAX,
    free_handle_list_head := HMGRTABLE_INVALID_INDEX,
    free_handle_list_tail := HMGRTABLE_INVALID_INDEX,
    free_count := 0 }

/-- One-slot table whose only entry is occupied: the free list is
empty and head/tail carry the INVALID sentinel. -/
def all_occupied_table : hmgrtable :=
  { entry_table := [occupied_entry_gen2],
    table_size := 1,
    free_handle_list_head := HMGRTABLE_INVALID_INDEX,
    free_handle_list_tail := HMGRTABLE_INVALID_INDEX,
    free_count := 0 }


/-! ### Generic bit-manipulation lemmas for the handle codec -/

theorem and_shiftLeft_shiftRight (h m s : Nat) :
    (h &&& (m <<< s)) >>> s = (h >>> s) &&& m := by
  apply Nat.eq_of_testBit_eq
  intro j
  simp [Nat.testBit_shiftRight, Nat.testBit_and, Nat.testBit_shiftLeft,
    Nat.le_add_right, Nat.add_sub_cancel_left, Nat.add_comm s j]

theorem shiftLeft_and_shiftLeft (a b s : Nat) :
    (a <<< s) &&& (b <<< s) = (a &&& b) <<< s := by
  apply Nat.eq_of_testBit_eq
  intro j
  simp [Nat.testBit_and, Nat.testBit_shiftLeft]
  by_cases hj : s ≤ j <;> simp [hj]

theorem build_handle_arith (i g n : Nat) (hi : i < 2 ^ 24) (hg : g < 2 ^ 2)
    (hn : n < 2 ^ 6) :
    build_handle i g n = 2 ^ 6 * (2 ^ 24 * g + i) + n := by
  unfold build_handle
  show ((((i <<< 6) % 2 ^ 32) &&& (((1 <<< 24) - 1) <<< 6)) |||
      (((g <<< 30) % 2 ^ 32) &&& (((1 <<< 2) - 1) <<< 30))) |||
      (((n <<< 0) % 2 ^ 32) &&& (((1 <<< 6) - 1) <<< 0)) =
      2 ^ 6 * (2 ^ 24 * g + i) + n
  have h1 : ((i <<< 6) % 2 ^ 32) = i <<< 6 := by
    apply Nat.mod_eq_of_lt
    rw [Nat.shiftLeft_eq]
    omega
  have h2 : ((g <<< 30) % 2 ^ 32) = g <<< 30 := by
    apply Nat.mod_eq_of_lt
    rw [Nat.shiftLeft_eq]
    omega
  have h3 : ((n <<< 0) % 2 ^ 32) = n <<< 0 := by
    apply Nat.mod_eq_of_lt
    rw [Nat.shiftLeft_eq]
    omega
  rw [h1, h2, h3]
  have m1 : (1 <<< 24 : Nat) - 1 = 2 ^ 24 - 1 := by decide
  have m2 : (1 <<< 2 : Nat) - 1 = 2 ^ 2 - 1 := by decide
  have m3 : (1 <<< 6 : Nat) - 1 = 2 ^ 6 - 1 := by decide
  rw [m1, m2, m3, shiftLeft_and_shiftLeft, shiftLeft_and_shiftLeft,
    shiftLeft_and_shiftLeft]
  rw [Nat.and_pow_two_sub_one_eq_mod, Nat.and_pow_two_sub_one_eq_mod,
    Nat.and_pow_two_sub_one_eq_mod]
  rw [Nat.mod_eq_of_lt hi, Nat.mod_eq_of_lt hg, Nat.mod_eq_of_lt hn]
  rw [Nat.shiftLeft_eq, Nat.shiftLeft_eq, Nat.shiftLeft_eq]
  have hor1 : i * 2 ^ 6 ||| g * 2 ^ 30 = 2 ^ 30 * g + i * 2 ^ 6 := by
    rw [Nat.lor_comm, Nat.mul_comm g]
    exact (Nat.mul_add_lt_is_or (by omega) g).symm
  rw [hor1]
  have hstep : (2 ^ 30 * g + i * 2 ^ 6 : Nat) = 2 ^ 6 * (2 ^ 24 * g + i) := by
    ring
  rw [hstep, Nat.pow_zero, Nat.mul_one]
  rw [← Nat.mul_add_lt_is_or (by omega) (2 ^ 24 * g + i)]

/-- Round trip of the codec, shared by the claims below. -/
theorem handle_roundtrip (i g n : Nat) (hi : i < 2 ^ 24) (hg : g < 2 ^ 2)
    (hn : n < 2 ^ 6) :
    get_index (build_handle i g n) = i ∧
    get_unique (build_handle i g n) = g ∧
    get_instance (build_handle i g n) = n := by
  have hb := build_handle_arith i g n hi hg hn
  refine ⟨?_, ?_, ?_⟩
  · show (build_handle i g n &&& (((1 <<< 24) - 1) <<< 6)) >>> 6 = i
    rw [and_shiftLeft_shiftRight, Nat.shiftRight_eq_div_pow,
      show ((1 <<< 24 : Nat) - 1) = 2 ^ 24 - 1 from by decide,
      Nat.and_pow_two_sub_one_eq_mod, hb]
    omega
  · show (build_handle i g n &&& (((1 <<< 2) - 1) <<< 30)) >>> 30 = g
    rw [and_shiftLeft_shiftRight, Nat.shiftRight_eq_div_pow,
      show ((1 <<< 2 : Nat) - 1) = 2 ^ 2 - 1 from by decide,
      Nat.and_pow_two_sub_one_eq_mod, hb]
    omega
  · show (build_handle i g n &&& (((1 <<< 6) - 1) <<< 0)) >>> 0 = n
    rw [and_shiftLeft_shiftRight, Nat.shiftRight_zero,
      show ((1 <<< 6 : Nat) - 1) = 2 ^ 6 - 1 from by decide,
      Nat.and_pow_two_sub_one_eq_mod, hb]
    omega

/-- The decoded generation field always fits in its 2-bit width. -/
theorem get_unique_lt (h : Nat) : get_unique h < 2 ^ 2 := by
  show (h &&& (((1 <<< 2) - 1) <<< 30)) >>> 30 < 2 ^ 2
  rw [and_shiftLeft_shiftRight,
    show ((1 <<< 2 : Nat) - 1) = 2 ^ 2 - 1 from by decide,
    Nat.and_pow_two_sub_one_eq_mod]
  exact Nat.mod_lt _ (by decide)

/-- The decoded index always fits in its 24-bit width. -/
theorem get_index_lt (h : Nat) : get_index h < 2 ^ 24 := by
  show (h &&& (((1 <<< 24) - 1) <<< 6)) >>> 6 < 2 ^ 24
  rw [and_shiftLeft_shiftRight,
    show ((1 <<< 24 : Nat) - 1) = 2 ^ 24 - 1 from by decide,
    Nat.and_pow_two_sub_one_eq_mod]
  exact Nat.mod_lt _ (by decide)

/-- C3: decoding the handle built from field values within their widths
(index < 2^24, generation < 2^2, instance < 2^6) returns exactly the
same triple. -/
theorem c3_handle_roundtrip (i g n : Nat) (hi : i < 2 ^ 24) (hg : g < 2 ^ 2)
    (hn : n < 2 ^ 6) :
    get_index (build_handle i g n) = i ∧
    get_unique (build_handle i g n) = g ∧
    get_instance (build_handle i g n) = n :=
  handle_roundtrip i g n hi hg hn

/-- Witness for C3 at index 5, generation 2, instance 7. -/
theorem c3_witness :
    5 < 2 ^ 24 ∧ 2 < 2 ^ 2 ∧ 7 < 2 ^ 6 ∧
    (get_index (build_handle 5 2 7) = 5 ∧
     get_unique (build_handle 5 2 7) = 2 ∧
     get_instance (build_handle 5 2 7) = 7) :=
  ⟨by decide, by decide, by decide,
   c3_handle_roundtrip 5 2 7 (by decide) (by decide) (by decide)⟩


/-! ### Failure paths of expand_table -/

/-- Every failure path of `expand_table` (tail-consistency check,
24-bit size cap, allocation failure) returns the table untouched. -/
theorem expand_table_fail_unchanged (table : hmgrtable) (NumEntries : Nat)
    (alloc_ok : Bool)
    (hfail : (expand_table table NumEntries alloc_ok).1 = false) :
    (expand_table table NumEntries alloc_ok).2 = table := by
  simp only [expand_table] at hfail ⊢
  split_ifs at hfail ⊢ <;> simp_all

/-- C8: growth is all-or-nothing — if the target size (the larger of
`size + increment` and the requested entry count) exceeds the 24-bit
index ceiling, or the backing-array allocation fails, `expand_table`
reports failure and returns the table (entries, size, free_count,
free-list head and tail) exactly as it was. -/
theorem c8_expand_failure_unchanged (table : hmgrtable) (NumEntries : Nat)
    (alloc_ok : Bool)
    (hfail : HMGRHANDLE_INDEX_MAX <
        max (table.table_size + table_size_increment) NumEntries ∨
      alloc_ok = false) :
    expand_table table NumEntries alloc_ok = (false, table) := by
  simp only [expand_table]
  split_ifs <;>
    first
    | rfl
    | (exfalso
       rcases hfail with hbig | hko
       · rw [Nat.max_def] at hbig
         split at hbig <;> omega
       · simp_all)

/-- Witness for C8: a table at the index ceiling cannot grow and is
returned unchanged. -/
theorem c8_witness :
    (HMGRHANDLE_INDEX_MAX <
        max (ceiling_table.table_size + table_size_increment) 0 ∨
      (true : Bool) = false) ∧
    expand_table ceiling_table 0 true = (false, ceiling_table) :=
  ⟨Or.inl (by decide),
   c8_expand_failure_unchanged ceiling_table 0 true (Or.inl (by decide))⟩

/-! ### free on an invalid handle -/

/-- C6: when validation fails (bad index, generation mismatch, freed
slot, or type mismatch — the destroyed flag being ignored),
`hmgrtable_free_handle` returns the table completely unchanged. -/
theorem c6_free_invalid_noop (table : hmgrtable) (t h : Nat)
    (hv : is_handle_valid table h true t = false) :
    hmgrtable_free_handle table t h = table := by
  unfold hmgrtable_free_handle
  simp [hv]

/-- Witness for C6: freeing handle 0 from the empty initial table. -/
theorem c6_witness :
    is_handle_valid hmgrtable_init 0 true 1 = false ∧
    hmgrtable_free_handle hmgrtable_init 1 0 = hmgrtable_init :=
  ⟨by decide, c6_free_invalid_noop hmgrtable_init 1 0 (by decide)⟩

/-! ### The generation bump in free is dead code -/

/-- C1 (bug evidence): freeing a valid handle whose slot currently has
generation 2 leaves the slot's generation at 2 instead of advancing it
to 3: `hmgrtable_free_handle` stores 1 into `unique` before the
increment-with-wrap runs, so every free produces generation 2. -/
theorem c1_free_always_sets_generation_two :
    is_handle_valid two_slot_table (build_handle 0 2 0) true 1 = true ∧
    ((hmgrtable_free_handle two_slot_table 1
        (build_handle 0 2 0)).entry_table.getD 0 null_entry).unique = 2 := by
  constructor <;> decide

/-! ### free_count versus the number of Free entries -/

set_option maxRecDepth 100000 in
/-- C4 (bug evidence): assigning handle index 1 on a fresh table makes
`expand_table` create 1025 Free entries while adding only the fixed
increment 1024 to `free_count`; after the successful assign the table
has 1024 Free entries but `free_count = 1023`. -/
theorem c4_free_count_mismatch_after_assign_grow :
    (hmgrtable_assign_handle hmgrtable_init 7 1 (build_handle 1 1 0) true).1 =
      Status.success ∧
    (hmgrtable_assign_handle hmgrtable_init 7 1
      (build_handle 1 1 0) true).2.free_count = 1023 ∧
    (hmgrtable_assign_handle hmgrtable_init 7 1
      (build_handle 1 1 0) true).2.entry_table.countP
        (fun e => e.type == HMGRENTRY_TYPE_FREE) = 1024 ∧
    ¬ free_count_consistent
      (hmgrtable_assign_handle hmgrtable_init 7 1 (build_handle 1 1 0) true).2 := by
  have h2 : (hmgrtable_assign_handle hmgrtable_init 7 1
      (build_handle 1 1 0) true).2.free_count = 1023 := by decide
  have h3 : (hmgrtable_assign_handle hmgrtable_init 7 1
      (build_handle 1 1 0) true).2.entry_table.countP
        (fun e => e.type == HMGRENTRY_TYPE_FREE) = 1024 := by decide
  refine ⟨by decide, h2, h3, ?_⟩
  intro hc
  rw [free_count_consistent, h2, h3] at hc
  exact absurd hc (by decide)

/-! ### assign can store generation zero -/

set_option maxRecDepth 100000 in
/-- C5 (counterexample): the very first operation on a fresh table can
store generation 0 — `hmgrtable_assign_handle` with handle 0 (index 0,
generation field 0) succeeds and writes `unique = 0` into slot 0. -/
theorem c5_counterexample_assign_stores_zero_generation :
    (hmgrtable_assign_handle hmgrtable_init 7 1 0 true).1 = Status.success ∧
    ((hmgrtable_assign_handle hmgrtable_init 7 1
        0 true).2.entry_table.getD 0 null_entry).unique = 0 := by
  constructor <;> decide

/-! ### assign on a busy slot -/

/-- C7: when the decoded index is inside the current table but the slot
is not Free, `hmgrtable_assign_handle` fails with the invalid-parameter
status and leaves the table (slot, free list, free_count) unmodified. -/
theorem c7_assign_busy_failure (table : hmgrtable) (object ty h : Nat)
    (alloc_ok : Bool)
    (hsz : table.table_size ≤ HMGRHANDLE_INDEX_MAX)
    (hidx : get_index h < table.table_size)
    (hbusy : (table.entry_table.getD (get_index h) null_entry).type ≠
      HMGRENTRY_TYPE_FREE) :
    hmgrtable_assign_handle table object ty h alloc_ok =
      (Status.invalid_parameter, table) := by
  have h1 : ¬ get_index h ≥ HMGRHANDLE_INDEX_MAX := by omega
  have h2 : ¬ get_index h ≥ table.table_size := by omega
  simp only [hmgrtable_assign_handle]
  split_ifs <;>
    first
    | rfl
    | (simp only [hmgrtable_assign_handle_unlink]; rw [if_pos hbusy])
    | simp_all

/-- Witness for C7: assigning onto the occupied slot 0 of
`two_slot_table` is rejected as busy. -/
theorem c7_witness :
    two_slot_table.table_size ≤ HMGRHANDLE_INDEX_MAX ∧
    get_index (build_handle 0 2 0) < two_slot_table.table_size ∧
    (two_slot_table.entry_table.getD (get_index (build_handle 0 2 0))
      null_entry).type ≠ HMGRENTRY_TYPE_FREE ∧
    hmgrtable_assign_handle two_slot_table 7 1 (build_handle 0 2 0) true =
      (Status.invalid_parameter, two_slot_table) :=
  ⟨by decide, by decide, by decide,
   c7_assign_busy_failure two_slot_table 7 1 (build_handle 0 2 0) true
     (by decide) (by decide) (by decide)⟩

/-! ### Growth triggered by the low-water mark -/

/-- On success with `NumEntries = 0` (the allocate path), `expand_table`
adds exactly the fixed increment to both `free_count` and the size. -/
theorem expand_table_success_zero (t : hmgrtable) (ok : Bool)
    (hs : (expand_table t 0 ok).1 = true) :
    (expand_table t 0 ok).2.free_count = t.free_count + table_size_increment ∧
    (expand_table t 0 ok).2.table_size = t.table_size + table_size_increment := by
  simp only [expand_table] at hs ⊢
  split_ifs at hs ⊢ <;> simp_all

/-- On a successful pop (nonzero returned handle),
`hmgrtable_alloc_handle_pop` decrements `free_count` by one and leaves
the size unchanged. -/
theorem alloc_pop_success (t1 : hmgrtable) (obj ty : Nat) (mv : Bool)
    (hne : (hmgrtable_alloc_handle_pop t1 obj ty mv).1 ≠ 0) :
    (hmgrtable_alloc_handle_pop t1 obj ty mv).2.free_count =
      t1.free_count - 1 ∧
    (hmgrtable_alloc_handle_pop t1 obj ty mv).2.table_size = t1.table_size := by
  simp only [hmgrtable_alloc_handle_pop] at hne ⊢
  split_ifs at hne ⊢ <;>
    first
    | exact absurd rfl hne
    | exact ⟨rfl, rfl⟩

/-- C9: with `free_count` at or below the low-water mark,
`hmgrtable_alloc_handle` grows first: if growth fails it returns the
zero (failure) handle with the table unchanged, and on a successful
allocation the resulting `free_count` exceeds the mark and the size
strictly increased. -/
theorem c9_alloc_low_water_growth (t : hmgrtable) (obj ty : Nat) (mv ok : Bool)
    (hlow : t.free_count ≤ HMGRTABLE_MIN_FREE_ENTRIES) :
    ((expand_table t 0 ok).1 = false →
      hmgrtable_alloc_handle t obj ty mv ok = (0, t)) ∧
    ((hmgrtable_alloc_handle t obj ty mv ok).1 ≠ 0 →
      HMGRTABLE_MIN_FREE_ENTRIES <
        (hmgrtable_alloc_handle t obj ty mv ok).2.free_count ∧
      t.table_size < (hmgrtable_alloc_handle t obj ty mv ok).2.table_size) := by
  have hfc : (expand_table t 0 ok).1 = false →
      (expand_table t 0 ok).2 = t := expand_table_fail_unchanged t 0 ok
  have hsucc := expand_table_success_zero t ok
  simp only [hmgrtable_alloc_handle, if_pos hlow]
  rcases hex : expand_table t 0 ok with ⟨b, t1⟩
  rw [hex] at hfc hsucc
  cases b
  · simp only [Bool.false_eq_true, not_false_eq_true, forall_const] at hfc
    simp [hfc]
  · simp only [forall_const] at hsucc
    have hmin : HMGRTABLE_MIN_FREE_ENTRIES = 128 := by decide
    have hinc : table_size_increment = 1024 := by decide
    constructor
    · intro hbad
      simp at hbad
    · rw [if_neg (by simp : ¬ (((true, t1) : Bool × hmgrtable).1 = false))]
      intro hne
      rcases alloc_pop_success t1 obj ty mv hne with ⟨hp1, hp2⟩
      rw [hp1, hp2]
      omega

/-- Witness for C9: the first allocation from the empty initial table
grows it to 1024 entries. -/
theorem c9_witness :
    hmgrtable_init.free_count ≤ HMGRTABLE_MIN_FREE_ENTRIES ∧
    (((expand_table hmgrtable_init 0 true).1 = false →
        hmgrtable_alloc_handle hmgrtable_init 5 1 true true =
          (0, hmgrtable_init)) ∧
     ((hmgrtable_alloc_handle hmgrtable_init 5 1 true true).1 ≠ 0 →
        HMGRTABLE_MIN_FREE_ENTRIES <
          (hmgrtable_alloc_handle hmgrtable_init 5 1 true true).2.free_count ∧
        hmgrtable_init.table_size <
          (hmgrtable_alloc_handle hmgrtable_init 5 1 true true).2.table_size)) :=
  ⟨by decide, c9_alloc_low_water_growth hmgrtable_init 5 1 true true (by decide)⟩

/-! ### Bounds of the free-list tail access in free -/

/-- A handle that passes validation has its decoded index inside the
table. -/
theorem is_handle_valid_index_lt (table : hmgrtable) (h : Nat)
    (ig : Bool) (t : Nat) (hv : is_handle_valid table h ig t = true) :
    get_index h < table.table_size := by
  unfold is_handle_valid at hv
  by_cases hidx : get_index h ≥ table.table_size
  · simp [hidx] at hv
  · omega

/-- C10: on the successful path of free, the write through the
free-list tail is in bounds exactly when the free list is non-empty:
with `free_count ≥ 1` (tail inside the table) every access fits, and
with an empty free list the tail is the INVALID sentinel, which lies
beyond any legal table size, so the access falls outside the entry
array. -/
theorem c10_free_tail_access_bounds (table : hmgrtable) (ty h : Nat)
    (hsz : table.table_size ≤ HMGRHANDLE_INDEX_MAX)
    (hvalid : is_handle_valid table h true ty = true)
    (htail : 1 ≤ table.free_count →
      table.free_handle_list_tail < table.table_size)
    (hempty : table.free_count = 0 →
      table.free_handle_list_tail = HMGRTABLE_INVALID_INDEX) :
    (1 ≤ table.free_count →
      (hmgrtable_free_handle_checked table ty h).isSome = true) ∧
    (table.free_count = 0 →
      hmgrtable_free_handle_checked table ty h = none) := by
  have hidx := is_handle_valid_index_lt table h true ty hvalid
  simp only [hmgrtable_free_handle_checked, hvalid, if_true, hidx, if_pos]
  constructor
  · intro h1
    have ht := htail h1
    simp [ht]
  · intro h0
    have ht := hempty h0
    have hM : HMGRHANDLE_INDEX_MAX = 16777215 := by decide
    have hI : HMGRTABLE_INVALID_INDEX = 4278190080 := by decide
    have hnot : ¬ table.free_handle_list_tail < table.table_size := by omega
    simp [hnot]

/-- Witness for C10: freeing the valid handle of `all_occupied_table`
(empty free list) would write outside the entry array. -/
theorem c10_witness :
    all_occupied_table.table_size ≤ HMGRHANDLE_INDEX_MAX ∧
    is_handle_valid all_occupied_table (build_handle 0 2 0) true 1 = true ∧
    ((1 ≤ all_occupied_table.free_count →
        (hmgrtable_free_handle_checked all_occupied_table 1
          (build_handle 0 2 0)).isSome = true) ∧
     (all_occupied_table.free_count = 0 →
        hmgrtable_free_handle_checked all_occupied_table 1
          (build_handle 0 2 0) = none)) :=
  ⟨by decide, by decide,
   c10_free_tail_access_bounds all_occupied_table 1 (build_handle 0 2 0)
     (by decide) (by decide) (by decide) (by decide)⟩

/-- An in-bounds `getD` read returns a member of the list. -/
theorem getD_mem (l : List hmgrentry) (i : Nat) (h : i < l.length) :
    l.getD i null_entry ∈ l := by
  rw [List.getD_eq_getElem?_getD, List.getElem?_eq_getElem h]
  exact List.getElem_mem h

/-- Reading back an in-bounds `set`. -/
theorem getD_set_self (l : List hmgrentry) (i : Nat) (v : hmgrentry)
    (h : i < l.length) : (l.set i v).getD i null_entry = v := by
  rw [List.getD_eq_getElem?_getD, List.getElem?_set_self h]
  rfl

/-- The initialisation loop creates exactly `count` entries. -/
theorem length_init_free_entries (k i p : Nat) :
    (init_free_entries k i p).length = k := by
  induction k generalizing i p with
  | zero => rfl
  | succ k ih => simp [init_free_entries, ih]

/-- Every entry produced by the initialisation loop has generation 1. -/
theorem unique_of_mem_init_free_entries (k i p : Nat) (e : hmgrentry)
    (he : e ∈ init_free_entries k i p) : e.unique = 1 := by
  induction k generalizing i p with
  | zero => cases he
  | succ k ih =>
    rw [init_free_entries] at he
    rcases List.mem_cons.mp he with h | h
    · rw [h]
    · exact ih _ _ h

/-- A property of every entry's generation survives a `set` whose new
value also satisfies it. -/
theorem forall_mem_set (l : List hmgrentry) (i : Nat) (v : hmgrentry)
    (Q : Nat → Prop) (hl : ∀ e ∈ l, Q e.unique) (hv : Q v.unique) :
    ∀ e ∈ l.set i v, Q e.unique := by
  intro e he
  rcases List.mem_or_eq_of_mem_set he with h | h
  · exact hl e h
  · rw [h]
    exact hv

/-- A property of every entry's generation survives a `set` that
rewrites a slot with a generation-preserving update of itself (the
shape of every free-list link fix in the source). -/
theorem forall_mem_set_update (l : List hmgrentry) (i : Nat)
    (f : hmgrentry → hmgrentry) (Q : Nat → Prop)
    (hf : ∀ e, (f e).unique = e.unique)
    (hl : ∀ e ∈ l, Q e.unique) :
    ∀ e ∈ l.set i (f (l.getD i null_entry)), Q e.unique := by
  by_cases hi : i < l.length
  · refine forall_mem_set l i _ Q hl ?_
    rw [hf]
    exact hl _ (getD_mem l i hi)
  · rw [List.set_eq_of_length_le (by omega)]
    exact hl

/-- Any property of the stored generations that holds of 1 is preserved
by `expand_table` (new entries get generation 1; the link fixes leave
generations alone). -/
theorem expand_table_unique_pred (t : hmgrtable) (NumEntries : Nat)
    (ok : Bool) (Q : Nat → Prop)
    (hl : ∀ e ∈ t.entry_table, Q e.unique) (h1 : Q 1) :
    ∀ e ∈ (expand_table t NumEntries ok).2.entry_table, Q e.unique := by
  have hbase : ∀ (tsz nsz ptail : Nat),
      ∀ e ∈ t.entry_table.take tsz ++ init_free_entries nsz tsz ptail,
        Q e.unique := by
    intro tsz nsz ptail e he
    rcases List.mem_append.mp he with h | h
    · exact hl e (List.take_subset _ _ h)
    · rw [unique_of_mem_init_free_entries _ _ _ _ h]
      exact h1
  simp only [expand_table]
  split_ifs <;> try exact hl
  all_goals
    first
    | exact forall_mem_set_update _ _
        (fun x => { x with next_free_index := _ }) Q (fun _ => rfl)
        (forall_mem_set_update _ _
          (fun x => { x with next_free_index := _ }) Q (fun _ => rfl)
          (hbase _ _ _))
    | exact forall_mem_set_update _ _
        (fun x => { x with next_free_index := _ }) Q (fun _ => rfl)
        (hbase _ _ _)

/-- `expand_table` keeps the entry list's length equal to
`table_size`. -/
theorem expand_table_len (t : hmgrtable) (NumEntries : Nat) (ok : Bool)
    (hlen : t.entry_table.length = t.table_size) :
    (expand_table t NumEntries ok).2.entry_table.length =
      (expand_table t NumEntries ok).2.table_size := by
  simp only [expand_table]
  split_ifs <;> try exact hlen
  all_goals
    simp only [List.length_set, List.length_append, List.length_take,
      length_init_free_entries, hlen]
  all_goals omega

/-- `expand_table` never grows past the 24-bit index ceiling. -/
theorem expand_table_size_le (t : hmgrtable) (NumEntries : Nat) (ok : Bool)
    (hsz : t.table_size ≤ HMGRHANDLE_INDEX_MAX) :
    (expand_table t NumEntries ok).2.table_size ≤ HMGRHANDLE_INDEX_MAX := by
  simp only [expand_table]
  split_ifs <;> first | exact hsz | (dsimp only; omega)

/-- Generation-property preservation for `hmgrtable_free_handle`: the
freed slot gets `(1 + 1) % 4 = 2` (or 1 on the dead branch), and the
tail link fix preserves generations. -/
theorem free_handle_unique_pred (t : hmgrtable) (ty h : Nat) (Q : Nat → Prop)
    (hl : ∀ e ∈ t.entry_table, Q e.unique) (h1 : Q 1)
    (h2 : Q ((1 + 1) % 2 ^ HMGRHANDLE_UNIQUE_BITS)) :
    ∀ e ∈ (hmgrtable_free_handle t ty h).entry_table, Q e.unique := by
  simp only [hmgrtable_free_handle]
  split_ifs <;> try exact hl
  all_goals
    refine forall_mem_set_update _ _
      (fun x => { x with next_free_index := _ }) Q (fun _ => rfl) ?_
  all_goals refine forall_mem_set _ _ _ Q hl ?_
  · exact h2
  · exact h1

/-- Generation-property preservation for the pop step of allocate. -/
theorem alloc_pop_unique_pred (t : hmgrtable) (obj ty : Nat) (mv : Bool)
    (Q : Nat → Prop) (hl : ∀ e ∈ t.entry_table, Q e.unique) :
    ∀ e ∈ (hmgrtable_alloc_handle_pop t obj ty mv).2.entry_table,
      Q e.unique := by
  simp only [hmgrtable_alloc_handle_pop]
  split_ifs <;>
    (repeat
      first
      | exact hl
      | refine forall_mem_set_update _ _
          (fun x => { x with prev_free_index := _ }) Q (fun _ => rfl) ?_
      | refine forall_mem_set_update _ _
          (fun x => { x with object := _, type := _, inst := _, destroyed := _ }) Q (fun _ => rfl) ?_)

/-- Generation-property preservation for `hmgrtable_alloc_handle`. -/
theorem alloc_handle_unique_pred (t : hmgrtable) (obj ty : Nat) (mv ok : Bool)
    (Q : Nat → Prop)
    (hl : ∀ e ∈ t.entry_table, Q e.unique) (h1 : Q 1) :
    ∀ e ∈ (hmgrtable_alloc_handle t obj ty mv ok).2.entry_table, Q e.unique := by
  have hpre := expand_table_unique_pred t 0 ok Q hl h1
  simp only [hmgrtable_alloc_handle]
  split_ifs <;>
    first
    | exact hl
    | exact hpre
    | exact alloc_pop_unique_pred _ obj ty mv Q hpre
    | exact alloc_pop_unique_pred _ obj ty mv Q hl

/-- Generation-property preservation for the head-unlink half of
assign; the overwritten slot stores the caller-supplied generation
truncated to the field width. -/
theorem assign_head_unique_pred (t : hmgrtable) (obj ty index u : Nat)
    (e0 : hmgrentry) (Q : Nat → Prop)
    (hl : ∀ e ∈ t.entry_table, Q e.unique)
    (hq : Q (u % 2 ^ HMGRHANDLE_UNIQUE_BITS)) :
    ∀ e ∈ (hmgrtable_assign_handle_head t obj ty index u e0).2.entry_table,
      Q e.unique := by
  simp only [hmgrtable_assign_handle_head]
  split_ifs <;>
    (repeat
      first
      | exact hl
      | refine forall_mem_set _ _ _ Q ?_ hq
      | refine forall_mem_set_update _ _
          (fun x => { x with next_free_index := _ }) Q (fun _ => rfl) ?_)

/-- Generation-property preservation for the unlink half of assign. -/
theorem assign_unlink_unique_pred (t : hmgrtable) (obj ty index u : Nat)
    (Q : Nat → Prop)
    (hl : ∀ e ∈ t.entry_table, Q e.unique)
    (hq : Q (u % 2 ^ HMGRHANDLE_UNIQUE_BITS)) :
    ∀ e ∈ (hmgrtable_assign_handle_unlink t obj ty index u).2.entry_table,
      Q e.unique := by
  simp only [hmgrtable_assign_handle_unlink]
  split_ifs <;>
    first
    | exact hl
    | exact assign_head_unique_pred _ obj ty index u _ Q hl hq
    | exact assign_head_unique_pred _ obj ty index u _ Q
        (forall_mem_set_update _ _
          (fun x => { x with prev_free_index := _ }) Q (fun _ => rfl) hl) hq

/-- Generation-property preservation for `hmgrtable_assign_handle`. -/
theorem assign_handle_unique_pred (t : hmgrtable) (obj ty h : Nat) (ok : Bool)
    (Q : Nat → Prop)
    (hl : ∀ e ∈ t.entry_table, Q e.unique) (h1 : Q 1)
    (hq : Q (get_unique h % 2 ^ HMGRHANDLE_UNIQUE_BITS)) :
    ∀ e ∈ (hmgrtable_assign_handle t obj ty h ok).2.entry_table, Q e.unique := by
  simp only [hmgrtable_assign_handle]
  split_ifs <;>
    first
    | exact hl
    | exact expand_table_unique_pred t _ ok Q hl h1
    | exact assign_unlink_unique_pred _ obj ty _ _ Q
        (expand_table_unique_pred t _ ok Q hl h1) hq
    | exact assign_unlink_unique_pred _ obj ty _ _ Q hl hq

/-- After the slot overwrite that ends a successful allocation, looking
up the freshly built handle with the allocation's type returns the
stored object. -/
theorem get_after_finish (tb : hmgrtable) (obj ty index : Nat)
    (hidx : index < tb.table_size)
    (hlen : tb.entry_table.length = tb.table_size)
    (hsz : tb.table_size ≤ HMGRHANDLE_INDEX_MAX)
    (hu : (tb.entry_table.getD index null_entry).unique < 2 ^ 2)
    (hty : ty ≠ HMGRENTRY_TYPE_FREE) :
    hmgrtable_get_object_by_type
      { tb with
          entry_table := tb.entry_table.set index
            { tb.entry_table.getD index null_entry with
                object := obj, type := ty, inst := 0, destroyed := false },
          free_count := tb.free_count - 1 }
      ty
      (build_handle index (tb.entry_table.getD index null_entry).unique
        (((tb.entry_table.set index
            { tb.entry_table.getD index null_entry with
                object := obj, type := ty, inst := 0, destroyed := false }).getD
          index null_entry).inst)) = some obj := by
  have hlen' : index < tb.entry_table.length := by omega
  have hset : (tb.entry_table.set index
      { tb.entry_table.getD index null_entry with
          object := obj, type := ty, inst := 0, destroyed := false }).getD
        index null_entry =
      { tb.entry_table.getD index null_entry with
          object := obj, type := ty, inst := 0, destroyed := false } :=
    getD_set_self _ _ _ hlen'
  rw [hset]
  have hi24 : index < 2 ^ 24 := by
    have hM : HMGRHANDLE_INDEX_MAX = 16777215 := by decide
    omega
  obtain ⟨gi, gu, -⟩ := handle_roundtrip index
    (tb.entry_table.getD index null_entry).unique 0 hi24 hu (by decide)
  simp only [hmgrtable_get_object_by_type, is_handle_valid, gi, gu]
  rw [hset]
  have hnot : ¬ index ≥ tb.table_size := by omega
  simp [hnot, hty]

/-- A successful pop step followed by a typed lookup of the returned
handle yields the allocated object. -/
theorem get_after_pop (tb : hmgrtable) (obj ty : Nat)
    (hlen : tb.entry_table.length = tb.table_size)
    (hsz : tb.table_size ≤ HMGRHANDLE_INDEX_MAX)
    (huniq : ∀ e ∈ tb.entry_table, e.unique < 2 ^ 2)
    (hty : ty ≠ HMGRENTRY_TYPE_FREE)
    (hsucc : (hmgrtable_alloc_handle_pop tb obj ty true).1 ≠ 0) :
    hmgrtable_get_object_by_type
      (hmgrtable_alloc_handle_pop tb obj ty true).2 ty
      (hmgrtable_alloc_handle_pop tb obj ty true).1 = some obj := by
  simp only [hmgrtable_alloc_handle_pop] at hsucc ⊢
  split_ifs at hsucc ⊢ with hhead htype hnt hnb
  · exact absurd rfl hsucc
  · exact absurd rfl hsucc
  · exact absurd rfl hsucc
  · -- interior pop: the new head's prev pointer was reset first
    dsimp only
    have hidx : tb.free_handle_list_head < tb.table_size := by omega
    have huniq2 : ∀ e ∈ (tb.entry_table.set
        (tb.entry_table.getD tb.free_handle_list_head
          null_entry).next_free_index
        { tb.entry_table.getD
            (tb.entry_table.getD tb.free_handle_list_head
              null_entry).next_free_index null_entry with
            prev_free_index := HMGRTABLE_INVALID_INDEX }),
        e.unique < 2 ^ 2 :=
      forall_mem_set_update _ _
        (fun x => { x with prev_free_index := HMGRTABLE_INVALID_INDEX })
        (fun u => u < 2 ^ 2) (fun _ => rfl) huniq
    exact get_after_finish
      { tb with
          free_handle_list_head :=
            (tb.entry_table.getD tb.free_handle_list_head
              null_entry).next_free_index,
          entry_table := tb.entry_table.set
            (tb.entry_table.getD tb.free_handle_list_head
              null_entry).next_free_index
            { tb.entry_table.getD
                (tb.entry_table.getD tb.free_handle_list_head
                  null_entry).next_free_index null_entry with
                prev_free_index := HMGRTABLE_INVALID_INDEX } }
      obj ty tb.free_handle_list_head hidx
      (by simp [List.length_set, hlen]) hsz
      (huniq2 _ (getD_mem _ _ (by simp [List.length_set]; omega))) hty
  · -- the popped slot's next is the tail: no prev fix
    dsimp only
    have hidx : tb.free_handle_list_head < tb.table_size := by omega
    exact get_after_finish
      { tb with
          free_handle_list_head :=
            (tb.entry_table.getD tb.free_handle_list_head
              null_entry).next_free_index }
      obj ty tb.free_handle_list_head hidx hlen hsz
      (huniq _ (getD_mem _ _ (by omega))) hty

/-- C2: for every object `o` and non-free type `t`, allocating `o` with
type `t` (make_valid, as the spec's `allocate(o, t)` implies) and then
looking the returned handle up with expected type `t` yields `o`,
whenever the allocation succeeds (nonzero handle). -/
theorem c2_get_object_after_alloc (t : hmgrtable) (obj ty : Nat) (ok : Bool)
    (hlen : t.entry_table.length = t.table_size)
    (hsz : t.table_size ≤ HMGRHANDLE_INDEX_MAX)
    (huniq : ∀ e ∈ t.entry_table, e.unique < 2 ^ 2)
    (hty : ty ≠ HMGRENTRY_TYPE_FREE)
    (hsucc : (hmgrtable_alloc_handle t obj ty true ok).1 ≠ 0) :
    hmgrtable_get_object_by_type
      (hmgrtable_alloc_handle t obj ty true ok).2 ty
      (hmgrtable_alloc_handle t obj ty true ok).1 = some obj := by
  simp only [hmgrtable_alloc_handle] at hsucc ⊢
  by_cases hfc : t.free_count ≤ HMGRTABLE_MIN_FREE_ENTRIES
  · rw [if_pos hfc] at hsucc ⊢
    have hlen1 := expand_table_len t 0 ok hlen
    have hsz1 := expand_table_size_le t 0 ok hsz
    have huniq1 := expand_table_unique_pred t 0 ok (fun u => u < 2 ^ 2)
      huniq (by decide)
    rcases hex : expand_table t 0 ok with ⟨b, t1⟩
    rw [hex] at hsucc hlen1 hsz1 huniq1
    cases b
    · simp at hsucc
    · rw [if_neg (by simp : ¬ (((true, t1) : Bool × hmgrtable).1 = false))]
        at hsucc ⊢
      exact get_after_pop t1 obj ty hlen1 hsz1 huniq1 hty hsucc
  · rw [if_neg hfc] at hsucc ⊢
    rw [if_neg (by simp : ¬ (((true, t) : Bool × hmgrtable).1 = false))]
      at hsucc ⊢
    exact get_after_pop t obj ty hlen hsz huniq hty hsucc

set_option maxRecDepth 10000 in
/-- Witness for C2: allocating object 5 with type 3 from
`many_free_table` and reading it back. -/
theorem c2_witness :
    many_free_table.entry_table.length = many_free_table.table_size ∧
    many_free_table.table_size ≤ HMGRHANDLE_INDEX_MAX ∧
    (∀ e ∈ many_free_table.entry_table, e.unique < 2 ^ 2) ∧
    (3 : Nat) ≠ HMGRENTRY_TYPE_FREE ∧
    (hmgrtable_alloc_handle many_free_table 5 3 true true).1 ≠ 0 ∧
    hmgrtable_get_object_by_type
      (hmgrtable_alloc_handle many_free_table 5 3 true true).2 3
      (hmgrtable_alloc_handle many_free_table 5 3 true true).1 = some 5 :=
  ⟨by decide, by decide, by decide, by decide, by decide,
   c2_get_object_after_alloc many_free_table 5 3 true (by decide) (by decide)
     (by decide) (by decide) (by decide)⟩

/-- C5 (amended): allocate, free and grow never store generation 0 into
any slot; assign stores the caller-supplied generation verbatim, so it
preserves nonzero generations exactly when the given handle's
generation field is nonzero. -/
theorem c5_amended_no_zero_generation (t : hmgrtable)
    (NumEntries obj ty h h2 : Nat) (mv ok : Bool)
    (hz : no_zero_generation t) :
    no_zero_generation (expand_table t NumEntries ok).2 ∧
    no_zero_generation (hmgrtable_alloc_handle t obj ty mv ok).2 ∧
    no_zero_generation (hmgrtable_free_handle t ty h) ∧
    (get_unique h2 ≠ 0 →
      no_zero_generation (hmgrtable_assign_handle t obj ty h2 ok).2) := by
  have hz' : ∀ e ∈ t.entry_table, (fun u => u ≠ 0) e.unique := hz
  unfold no_zero_generation
  refine ⟨expand_table_unique_pred t NumEntries ok (fun u => u ≠ 0) hz'
      (by decide),
    alloc_handle_unique_pred t obj ty mv ok (fun u => u ≠ 0) hz' (by decide),
    free_handle_unique_pred t ty h (fun u => u ≠ 0) hz' (by decide)
      (by decide),
    fun hu2 => assign_handle_unique_pred t obj ty h2 ok (fun u => u ≠ 0) hz'
      (by decide) ?_⟩
  have hlt : get_unique h2 < 2 ^ HMGRHANDLE_UNIQUE_BITS := get_unique_lt h2
  rw [Nat.mod_eq_of_lt hlt]
  exact hu2

/-- Witness for C5 at the concrete `two_slot_table`. -/
theorem c5_witness :
    no_zero_generation two_slot_table ∧
    (no_zero_generation (expand_table two_slot_table 0 true).2 ∧
     no_zero_generation
       (hmgrtable_alloc_handle two_slot_table 5 1 true true).2 ∧
     no_zero_generation
       (hmgrtable_free_handle two_slot_table 1 (build_handle 0 2 0)) ∧
     (get_unique (build_handle 1 1 0) ≠ 0 →
       no_zero_generation
         (hmgrtable_assign_handle two_slot_table 5 1
           (build_handle 1 1 0) true).2)) :=
  ⟨by unfold no_zero_generation; decide,
   c5_amended_no_zero_generation two_slot_table 0 5 1 (build_handle 0 2 0)
     (build_handle 1 1 0) true true (by unfold no_zero_generation; decide)⟩
